import Mathlib

/-!
Verification of the BlobEditor orchestration (src/edit-github-blob.ts).

The TypeScript function is embedded shallowly: every GitHub API call is a
field of an `ApiClient` record of pure functions (the provider's behaviour
for this run), `Date.now()` and Node's base64 `Buffer` codec are fields of
the surrounding `Env`, and the fallible `git.createRef` call is a function
from the attempt index to `Except String Unit` so that retries can observe
different outcomes per attempt.  The run returns the result
(`Except EditError String`, the URL on success) together with the ordered
trace of API calls it performed, so that "before any write" properties can
be stated about the trace.
-/

namespace BumpFormula

/-- The `{owner, repo}` pair identifying a repository (`baseRepo`/`headRepo`). -/
structure RepoRef where
  owner : String
  repo : String
deriving DecidableEq, Repr

/-- The `repoRes.data.permissions` record; only `push` is consulted. -/
structure Permissions where
  push : Bool
deriving DecidableEq, Repr

/-- The fields of the `repos.get` response (`repoRes.data`) that are read. -/
structure RepoData where
  default_branch : String
  permissions : Permissions
deriving DecidableEq, Repr

/-- The `branchRes.data.commit` record; only the sha is read. -/
structure BranchCommit where
  sha : String
deriving DecidableEq, Repr

/-- The fields of the `repos.getBranch` response (`branchRes.data`) that are read. -/
structure BranchData where
  «protected» : Bool
  commit : BranchCommit
deriving DecidableEq, Repr

/-- The `forkRes.data.owner` record; only `login` is read. -/
structure ForkOwner where
  login : String
deriving DecidableEq, Repr

/-- The fields of the `repos.createFork` response (`forkRes.data`) that are read. -/
structure ForkData where
  owner : ForkOwner
  name : String
deriving DecidableEq, Repr

/-- The `fileRes.data` of `repos.getContents`: either a directory listing
(`Array.isArray(fileData)`), or a single file whose `content` field may be
absent/falsy (`none`, or `some ""` which is falsy in JS) and whose blob
`sha` is used for the optimistic-concurrency commit. -/
inductive ContentsData where
  | dir (entries : List String)
  | file (content : Option String) (sha : String)
deriving DecidableEq, Repr

/-- Returns `true` iff the `getContents` response is a single file. -/
def ContentsData.isFile : ContentsData → Bool
  | .dir _ => false
  | .file _ _ => true

/-- The injected GitHub API client: one pure function per endpoint used.
`gitCreateRef` additionally takes the attempt index (0 for the first call)
so the retried call can fail transiently; every other call is modelled as
succeeding with the recorded response. -/
structure ApiClient where
  reposGet : RepoRef → RepoData
  reposGetBranch : RepoRef → String → BranchData
  reposCreateFork : RepoRef → ForkData
  gitCreateRef : RepoRef → String → String → Nat → Except String Unit
  reposGetContents : RepoRef → String → String → ContentsData
  reposCreateOrUpdateFile : RepoRef → String → String → String → String → String → String
  pullsCreate : RepoRef → String → String → String → String → String

/-- Ambient collaborators: the API client, `Date.now()` in milliseconds,
and Node's `Buffer` base64 codec (`Buffer.from(s, 'base64').toString('utf8')`
and `Buffer.from(s).toString('base64')`). -/
structure Env where
  api : ApiClient
  now : Nat
  b64decode : String → String
  b64encode : String → String

/-- The `Options` parameter object of the exported function. -/
structure Options where
  owner : String
  repo : String
  filePath : String
  branch : Option String
  replace : String → String
  commitMessage : Option String

/-- JS truthiness selection `v ? v : d` for an optional string:
an absent value and the empty string (both falsy) select the default. -/
def orElseStr (v : Option String) (d : String) : String :=
  match v with
  | some s => if s = "" then d else s
  | none => d

/-- The errors the function can produce: `notAFile` for
"expected '<path>' is a file, got a directory", `noChange` for
"no replacements ocurred", and `api` for a propagated provider failure
from the retried `createRef` call. -/
inductive EditError where
  | notAFile (filePath : String)
  | noChange
  | api (msg : String)
deriving DecidableEq, Repr

/-- One API call, recorded in order in the run's trace. -/
inductive Event where
  | getRepo (r : RepoRef)
  | getBranch (r : RepoRef) (branch : String)
  | createFork (r : RepoRef)
  | createRefAttempt (r : RepoRef) (refName sha : String)
  | getContents (r : RepoRef) (path refName : String)
  | createOrUpdateFile (r : RepoRef) (path message content sha branch : String)
  | createPull (r : RepoRef) (base head title body : String)
deriving DecidableEq, Repr

/-- Network writes: fork creation, ref creation, file commit, PR creation. -/
def Event.isWrite : Event → Bool
  | .createFork _ => true
  | .createRefAttempt _ _ _ => true
  | .createOrUpdateFile _ _ _ _ _ _ => true
  | .createPull _ _ _ _ _ => true
  | _ => false

/-- Fork-creation events. -/
def Event.isFork : Event → Bool
  | .createFork _ => true
  | _ => false

/-- Ref-creation attempts. -/
def Event.isRefCreate : Event → Bool
  | .createRefAttempt _ _ _ => true
  | _ => false

/-- File-commit events (`createOrUpdateFile`). -/
def Event.isCommit : Event → Bool
  | .createOrUpdateFile _ _ _ _ _ _ => true
  | _ => false

/-- Pull-request creation events. -/
def Event.isPull : Event → Bool
  | .createPull _ _ _ _ _ => true
  | _ => false

/-- The `retry` helper: try `fn`; on failure, if `times > 0`, wait `delay`
and recurse with `times - 1`; on exhaustion rethrow the last error.
`fn` is indexed by the attempt number (`start` for the first call here).
Besides the result it returns the number of attempts made and the total
delay waited (in ms), which the source spends in `setTimeout`. -/
def retry {α : Type} (times delay : Nat) (fn : Nat → Except String α)
    (start : Nat) : Except String α × Nat × Nat :=
  match fn start with
  | .ok v => (.ok v, 1, 0)
  | .error e =>
    match times with
    | 0 => (.error e, 1, 0)
    | t + 1 =>
      let r := retry t delay fn (start + 1)
      (r.1, r.2.1 + 1, r.2.2 + delay)

/-- Node's `path.basename` (POSIX, no extension argument): the last path
segment, ignoring trailing separators. -/
def basename (p : String) : String :=
  let rev := p.toList.reverse.dropWhile (fun c => c = '/')
  ((rev.takeWhile (fun c => c ≠ '/')).reverse).asString

/-- Embeds `baseRepo = {owner: params.owner, repo: params.repo}`. -/
def baseRepoOf (params : Options) : RepoRef :=
  ⟨params.owner, params.repo⟩

/-- The `repoRes.data` for the base repository. -/
def repoResOf (env : Env) (params : Options) : RepoData :=
  env.api.reposGet (baseRepoOf params)

/-- Embeds `baseBranch = params.branch ? params.branch : repoRes.data.default_branch`. -/
def baseBranchOf (env : Env) (params : Options) : String :=
  orElseStr params.branch (repoResOf env params).default_branch

/-- The `branchRes.data` for the base branch. -/
def branchResOf (env : Env) (params : Options) : BranchData :=
  env.api.reposGetBranch (baseRepoOf params) (baseBranchOf env params)

/-- Embeds `needsFork = !repoRes.data.permissions.push`. -/
def needsForkOf (env : Env) (params : Options) : Bool :=
  !(repoResOf env params).permissions.push

/-- The `headRepo`: the fork's `{owner.login, name}` when a fork is needed,
otherwise the base repository. -/
def headRepoOf (env : Env) (params : Options) : RepoRef :=
  if needsForkOf env params then
    let forkRes := env.api.reposCreateFork (baseRepoOf params)
    ⟨forkRes.owner.login, forkRes.name⟩
  else baseRepoOf params

/-- Embeds `needsPr = needsFork || branchRes.data.protected`. -/
def needsPrOf (env : Env) (params : Options) : Bool :=
  needsForkOf env params || (branchResOf env params).protected

/-- Embeds `Math.round(Date.now() / 1000)`: round-half-up of `now` milliseconds. -/
def timestampOf (env : Env) : Nat :=
  (env.now + 500) / 1000

/-- The `headBranch`: `update-<basename(filePath)>-<timestamp>` when a PR is
needed, else the base branch name. -/
def headBranchOf (env : Env) (params : Options) : String :=
  if needsPrOf env params then
    "update-" ++ basename params.filePath ++ "-" ++ toString (timestampOf env)
  else baseBranchOf env params

/-- The effectful body of the retried call:
`api.git.createRef({...headRepo, ref, sha})` at a given attempt index. -/
def createRefFn (env : Env) (params : Options) : Nat → Except String Unit :=
  fun n =>
    env.api.gitCreateRef (headRepoOf env params)
      ("refs/heads/" ++ headBranchOf env params)
      (branchResOf env params).commit.sha n

/-- The ref-creation step: `retry(needsFork ? 6 : 0, 5000, createRef)` when
a PR is needed; skipped (vacuously successful, zero attempts) otherwise. -/
def refRetryOf (env : Env) (params : Options) : Except String Unit × Nat × Nat :=
  if needsPrOf env params then
    retry (if needsForkOf env params then 6 else 0) 5000 (createRefFn env params) 0
  else (.ok (), 0, 0)

/-- The `fileRes.data`: contents of `filePath` at the head branch of the head
repository. -/
def fileResOf (env : Env) (params : Options) : ContentsData :=
  env.api.reposGetContents (headRepoOf env params) params.filePath
    (headBranchOf env params)

/-- The `oldContent`: the fetched `content` field (empty when absent or falsy)
decoded from base64. Empty when the path is a directory (unused there). -/
def oldContentOf (env : Env) (params : Options) : String :=
  match fileResOf env params with
  | .dir _ => ""
  | .file c _ => env.b64decode (c.getD "")

/-- Embeds `commitMessage = params.commitMessage ? params.commitMessage :
`Update ${filePath}``. -/
def commitMessageOf (params : Options) : String :=
  orElseStr params.commitMessage ("Update " ++ params.filePath)

/-- Worker for `jsSplit`: scan left to right; where `sep` occurs as a
contiguous run, cut; otherwise keep the character in the current piece.
`fuel` bounds the recursion (any value ≥ the list's length is enough when
`sep` is non-empty). -/
def jsSplitAux (sep : List Char) : Nat → List Char → List (List Char)
  | 0, s => [s]
  | f + 1, s =>
    match s with
    | [] => [[]]
    | c :: rest =>
      if sep.isPrefixOf (c :: rest) then
        [] :: jsSplitAux sep f ((c :: rest).drop sep.length)
      else
        match jsSplitAux sep f rest with
        | [] => [[c]]
        | h :: t => (c :: h) :: t

/-- JavaScript `s.split(sep)` for a non-empty string separator: the pieces
of `s` between non-overlapping left-to-right occurrences of `sep`
(JS returns `[s]` when `sep` does not occur, and keeps empty pieces). -/
def jsSplit (s sep : String) : List String :=
  (jsSplitAux sep.toList s.toList.length s.toList).map List.asString

/-- PR title: `commitMessage.split('\n\n')[0]`. -/
def prTitleOf (msg : String) : String :=
  (jsSplit msg "\n\n").headD ""

/-- PR body: `parts.slice(1).join('\n\n')`. -/
def prBodyOf (msg : String) : String :=
  String.intercalate "\n\n" ((jsSplit msg "\n\n").drop 1)

/-- The trace up to and including the ref-creation step: the two metadata
reads, the fork creation when needed, then one `createRefAttempt` per
attempt the retry loop made. -/
def preTrace (env : Env) (params : Options) : List Event :=
  [Event.getRepo (baseRepoOf params),
   Event.getBranch (baseRepoOf params) (baseBranchOf env params)]
  ++ (if needsForkOf env params then [Event.createFork (baseRepoOf params)] else [])
  ++ List.replicate (refRetryOf env params).2.1
      (Event.createRefAttempt (headRepoOf env params)
        ("refs/heads/" ++ headBranchOf env params)
        (branchResOf env params).commit.sha)

/-- The trace through the `getContents` read. -/
def midTrace (env : Env) (params : Options) : List Event :=
  preTrace env params
    ++ [Event.getContents (headRepoOf env params) params.filePath
          (headBranchOf env params)]

/-- The exported function: the full orchestration, returning the result
(PR URL, commit URL, or error) and the ordered trace of API calls. -/
def editGithubBlob (env : Env) (params : Options) :
    Except EditError String × List Event :=
  match (refRetryOf env params).1 with
  | .error e => (.error (.api e), preTrace env params)
  | .ok _ =>
    let tr3 := midTrace env params
    match fileResOf env params with
    | .dir _ => (.error (.notAFile params.filePath), tr3)
    | .file c sha =>
      let oldContent := env.b64decode (c.getD "")
      let newContent := params.replace oldContent
      if newContent = oldContent then (.error .noChange, tr3)
      else
        let msg := commitMessageOf params
        let newB64 := env.b64encode newContent
        let commitUrl := env.api.reposCreateOrUpdateFile (headRepoOf env params)
          params.filePath msg newB64 sha (headBranchOf env params)
        let tr4 := tr3 ++ [Event.createOrUpdateFile (headRepoOf env params)
          params.filePath msg newB64 sha (headBranchOf env params)]
        if needsPrOf env params then
          let head := (headRepoOf env params).owner ++ ":" ++ headBranchOf env params
          let prUrl := env.api.pullsCreate (baseRepoOf params)
            (baseBranchOf env params) head (prTitleOf msg) (prBodyOf msg)
          (.ok prUrl,
           tr4 ++ [Event.createPull (baseRepoOf params) (baseBranchOf env params)
             head (prTitleOf msg) (prBodyOf msg)])
        else (.ok commitUrl, tr4)

/-! ### Concrete fixtures (used by witnesses and counterexamples) -/

/-- Base64 codec fixture: decodes the one blob the examples use. -/
def exDecode : String → String := fun s => if s = "aGk=" then "hi" else ""

/-- Base64 encoder fixture (injective tagging stand-in). -/
def exEncode : String → String := fun s => "b64:" ++ s

/-- Provider fixture for the fork path: no push permission, unprotected
branch, ref creation always succeeds, `filePath` is a file. -/
def apiFork : ApiClient :=
  { reposGet := fun _ => ⟨"main", ⟨false⟩⟩
    reposGetBranch := fun _ _ => ⟨false, ⟨"headsha"⟩⟩
    reposCreateFork := fun _ => ⟨⟨"bot"⟩, "homebrew-core"⟩
    gitCreateRef := fun _ _ _ _ => .ok ()
    reposGetContents := fun _ _ _ => .file (some "aGk=") "blobsha"
    reposCreateOrUpdateFile := fun _ _ _ _ _ _ => "https://example.com/commit"
    pullsCreate := fun _ _ _ _ _ => "https://example.com/pull/1" }

/-- Provider fixture for the direct-push path: push permission, branch
unprotected. -/
def apiDirect : ApiClient :=
  { apiFork with reposGet := fun _ => ⟨"main", ⟨true⟩⟩ }

/-- Provider fixture: push permission but protected branch; ref creation
fails on every attempt. -/
def apiProt : ApiClient :=
  { apiFork with
    reposGet := fun _ => ⟨"main", ⟨true⟩⟩
    reposGetBranch := fun _ _ => ⟨true, ⟨"headsha"⟩⟩
    gitCreateRef := fun _ _ _ _ => .error "forbidden" }

/-- Provider fixture: fork path with ref creation failing on attempts 0
and 1 and succeeding from attempt 2 on (fork lag). -/
def apiFlaky : ApiClient :=
  { apiFork with
    gitCreateRef := fun _ _ _ n => if n < 2 then .error "not ready" else .ok () }

/-- Provider fixture: fork path with ref creation failing on every
attempt, with a distinct message per attempt. -/
def apiDead : ApiClient :=
  { apiFork with gitCreateRef := fun _ _ _ n => .error ("fail-" ++ toString n) }

/-- Provider fixture: fork path where `filePath` resolves to a directory. -/
def apiDir : ApiClient :=
  { apiFork with reposGetContents := fun _ _ _ => .dir ["a.rb", "b.rb"] }

/-- Provider fixture: direct-push path where the file response has no
`content` field. -/
def apiNoContent : ApiClient :=
  { apiDirect with reposGetContents := fun _ _ _ => .file none "blobsha" }

/-- Wrap a provider fixture into a full environment. -/
def mkEnv (api : ApiClient) : Env :=
  { api := api, now := 1700000005000, b64decode := exDecode, b64encode := exEncode }

/-- Standard request fixture: edit `Formula/foo.rb`, appending `!`. -/
def pEx : Options :=
  { owner := "o", repo := "r", filePath := "Formula/foo.rb", branch := none
    replace := fun s => s ++ "!", commitMessage := none }

/-- Request fixture whose `replace` is the identity. -/
def pId : Options :=
  { pEx with replace := fun s => s }

/-- Request fixture with an explicit two-part commit message. -/
def pMsg : Options :=
  { pEx with commitMessage := some "Fix typo\n\nDetails here" }

/-- A second, distinct request: another base owner, same file path. -/
def pEx2 : Options :=
  { pEx with owner := "other" }

/-! ### Characterization lemmas for the four outcomes of a run -/

/-- A run whose ref-creation step exhausts its retries fails with the
propagated provider error, having performed only the pre-trace calls. -/
theorem run_of_refError (env : Env) (params : Options) (e : String)
    (h : (refRetryOf env params).1 = .error e) :
    editGithubBlob env params = (.error (.api e), preTrace env params) := by
  unfold editGithubBlob
  rw [h]

/-- A run that fetches a directory fails with `notAFile` right after the
`getContents` read. -/
theorem run_of_dir (env : Env) (params : Options) (l : List String)
    (href : (refRetryOf env params).1 = .ok ())
    (hfile : fileResOf env params = .dir l) :
    editGithubBlob env params =
      (.error (.notAFile params.filePath), midTrace env params) := by
  unfold editGithubBlob
  rw [href, hfile]

/-- A run whose `replace` leaves the decoded content unchanged fails with
`noChange` right after the `getContents` read. -/
theorem run_of_noChange (env : Env) (params : Options) (c : Option String)
    (s : String)
    (href : (refRetryOf env params).1 = .ok ())
    (hfile : fileResOf env params = .file c s)
    (hrep : params.replace (env.b64decode (c.getD "")) =
      env.b64decode (c.getD "")) :
    editGithubBlob env params = (.error .noChange, midTrace env params) := by
  unfold editGithubBlob
  rw [href, hfile]
  simp [hrep]

/-- A successful run on the PR path: commit then pull request, returning
the PR URL. -/
theorem run_of_success_pr (env : Env) (params : Options) (c : Option String)
    (s : String)
    (href : (refRetryOf env params).1 = .ok ())
    (hfile : fileResOf env params = .file c s)
    (hrep : params.replace (env.b64decode (c.getD "")) ≠
      env.b64decode (c.getD ""))
    (hpr : needsPrOf env params = true) :
    editGithubBlob env params =
      (.ok (env.api.pullsCreate (baseRepoOf params) (baseBranchOf env params)
          ((headRepoOf env params).owner ++ ":" ++ headBranchOf env params)
          (prTitleOf (commitMessageOf params)) (prBodyOf (commitMessageOf params))),
       midTrace env params
         ++ [Event.createOrUpdateFile (headRepoOf env params) params.filePath
              (commitMessageOf params)
              (env.b64encode (params.replace (env.b64decode (c.getD "")))) s
              (headBranchOf env params)]
         ++ [Event.createPull (baseRepoOf params) (baseBranchOf env params)
              ((headRepoOf env params).owner ++ ":" ++ headBranchOf env params)
              (prTitleOf (commitMessageOf params))
              (prBodyOf (commitMessageOf params))]) := by
  unfold editGithubBlob
  rw [href, hfile]
  simp [hrep, hpr]

/-- A successful run on the direct-push path: a single commit, returning
the commit URL. -/
theorem run_of_success_direct (env : Env) (params : Options)
    (c : Option String) (s : String)
    (href : (refRetryOf env params).1 = .ok ())
    (hfile : fileResOf env params = .file c s)
    (hrep : params.replace (env.b64decode (c.getD "")) ≠
      env.b64decode (c.getD ""))
    (hpr : needsPrOf env params = false) :
    editGithubBlob env params =
      (.ok (env.api.reposCreateOrUpdateFile (headRepoOf env params)
          params.filePath (commitMessageOf params)
          (env.b64encode (params.replace (env.b64decode (c.getD "")))) s
          (headBranchOf env params)),
       midTrace env params
         ++ [Event.createOrUpdateFile (headRepoOf env params) params.filePath
              (commitMessageOf params)
              (env.b64encode (params.replace (env.b64decode (c.getD "")))) s
              (headBranchOf env params)]) := by
  unfold editGithubBlob
  rw [href, hfile]
  simp [hrep, hpr]

/-! ### Retry helper lemmas -/

/-- A first attempt that succeeds ends the retry loop at once. -/
theorem retry_of_ok {α : Type} (times delay start : Nat)
    (fn : Nat → Except String α) (v : α) (h : fn start = .ok v) :
    retry times delay fn start = (.ok v, 1, 0) := by
  unfold retry
  rw [h]

/-- With no retries left, a failing attempt rethrows its error. -/
theorem retry_zero_of_error {α : Type} (delay start : Nat)
    (fn : Nat → Except String α) (e : String) (h : fn start = .error e) :
    retry 0 delay fn start = (.error e, 1, 0) := by
  unfold retry
  rw [h]

/-- With retries left, a failing attempt waits one delay and recurses. -/
theorem retry_succ_of_error {α : Type} (t delay start : Nat)
    (fn : Nat → Except String α) (e : String) (h : fn start = .error e) :
    retry (t + 1) delay fn start =
      ((retry t delay fn (start + 1)).1,
       (retry t delay fn (start + 1)).2.1 + 1,
       (retry t delay fn (start + 1)).2.2 + delay) := by
  conv_lhs => unfold retry
  rw [h]

/-- Every retry loop makes at least one attempt. -/
theorem retry_attempts_pos {α : Type} (times delay start : Nat)
    (fn : Nat → Except String α) :
    0 < (retry times delay fn start).2.1 := by
  unfold retry
  cases h : fn start with
  | ok v => simp
  | error e => cases times <;> simp

/-- Six retries after failures on attempts 0 and 1 and success on attempt
2: the loop succeeds after 3 attempts and 2 delays. -/
theorem retry_six_third_ok {α : Type} (delay : Nat)
    (fn : Nat → Except String α) (e0 e1 : String) (v : α)
    (h0 : fn 0 = .error e0) (h1 : fn 1 = .error e1) (h2 : fn 2 = .ok v) :
    retry 6 delay fn 0 = (.ok v, 3, 2 * delay) := by
  rw [retry_succ_of_error 5 delay 0 fn e0 h0,
      retry_succ_of_error 4 delay 1 fn e1 h1,
      retry_of_ok 4 delay 2 fn v h2]
  refine Prod.ext rfl (Prod.ext rfl ?_)
  simp
  omega

/-- Six retries all failing: the loop rethrows the 7th attempt's error
after 7 attempts and 6 delays. -/
theorem retry_six_all_error {α : Type} (delay : Nat)
    (fn : Nat → Except String α) (err : Nat → String)
    (h : ∀ n, fn n = .error (err n)) :
    retry 6 delay fn 0 = (.error (err 6), 7, 6 * delay) := by
  rw [retry_succ_of_error 5 delay 0 fn (err 0) (h 0),
      retry_succ_of_error 4 delay 1 fn (err 1) (h 1),
      retry_succ_of_error 3 delay 2 fn (err 2) (h 2),
      retry_succ_of_error 2 delay 3 fn (err 3) (h 3),
      retry_succ_of_error 1 delay 4 fn (err 4) (h 4),
      retry_succ_of_error 0 delay 5 fn (err 5) (h 5),
      retry_zero_of_error delay 6 fn (err 6) (h 6)]
  refine Prod.ext rfl (Prod.ext rfl ?_)
  simp
  omega

/-- No event of the pre-trace (metadata reads, fork creation, ref-creation
attempts) is a file commit or a pull-request creation. -/
theorem preTrace_no_commit_pull (env : Env) (params : Options) :
    ∀ e ∈ preTrace env params, e.isCommit = false ∧ e.isPull = false := by
  intro e he
  simp only [preTrace, List.mem_append, List.mem_cons, List.not_mem_nil,
    or_false, List.mem_replicate] at he
  obtain ((h | h) | h) | ⟨-, h⟩ := he
  · subst h; exact ⟨rfl, rfl⟩
  · subst h; exact ⟨rfl, rfl⟩
  · by_cases hf : needsForkOf env params = true
    · rw [if_pos hf] at h
      simp only [List.mem_cons, List.not_mem_nil, or_false] at h
      subst h; exact ⟨rfl, rfl⟩
    · rw [if_neg hf] at h
      simp at h
  · subst h; exact ⟨rfl, rfl⟩

/-- No event of the mid-trace (pre-trace plus the `getContents` read) is a
file commit or a pull-request creation. -/
theorem midTrace_no_commit_pull (env : Env) (params : Options) :
    ∀ e ∈ midTrace env params, e.isCommit = false ∧ e.isPull = false := by
  intro e he
  simp only [midTrace, List.mem_append, List.mem_cons, List.not_mem_nil,
    or_false] at he
  obtain h | h := he
  · exact preTrace_no_commit_pull env params e h
  · subst h; exact ⟨rfl, rfl⟩

/-! ### Claims -/

/-- C1 counterexample: on the fork path, a `replace` that returns its
argument unchanged still fails with `NoChangeError`, but a fork creation —
a network write — has already occurred, contradicting "this failure occurs
before any network write occurs (in particular before any fork creation,
ref creation, or file commit)". -/
theorem counterexample_C1 :
    (editGithubBlob (mkEnv apiFork) pId).1 = .error .noChange ∧
    Event.createFork ⟨"o", "r"⟩ ∈ (editGithubBlob (mkEnv apiFork) pId).2 ∧
    Event.isWrite (Event.createFork ⟨"o", "r"⟩) = true ∧
    Event.createRefAttempt ⟨"bot", "homebrew-core"⟩
      "refs/heads/update-foo.rb-1700000005" "headsha"
      ∈ (editGithubBlob (mkEnv apiFork) pId).2 := by
  exact ⟨rfl, by decide, rfl, by decide⟩

/-- C1 (amended): when the fetched path is a file and the ref-creation
step succeeded, a `replace` that returns its argument unchanged makes the
operation fail with `NoChangeError`, and the failure occurs before the
file commit and before any pull-request creation (fork creation and ref
creation may already have occurred on the PR path). -/
theorem claim_C1 (env : Env) (params : Options) (c : Option String)
    (s : String)
    (href : (refRetryOf env params).1 = .ok ())
    (hfile : fileResOf env params = .file c s)
    (hrep : params.replace (env.b64decode (c.getD "")) =
      env.b64decode (c.getD "")) :
    (editGithubBlob env params).1 = .error .noChange ∧
    ∀ e ∈ (editGithubBlob env params).2,
      e.isCommit = false ∧ e.isPull = false := by
  rw [run_of_noChange env params c s href hfile hrep]
  exact ⟨rfl, midTrace_no_commit_pull env params⟩

/-- C1 witness: the amended claim at the fork-path fixture with the
identity `replace`. -/
theorem claim_C1_witness :
    (refRetryOf (mkEnv apiFork) pId).1 = .ok () ∧
    fileResOf (mkEnv apiFork) pId = .file (some "aGk=") "blobsha" ∧
    pId.replace ((mkEnv apiFork).b64decode ((some "aGk=").getD "")) =
      (mkEnv apiFork).b64decode ((some "aGk=").getD "") ∧
    ((editGithubBlob (mkEnv apiFork) pId).1 = .error .noChange ∧
      ∀ e ∈ (editGithubBlob (mkEnv apiFork) pId).2,
        e.isCommit = false ∧ e.isPull = false) :=
  ⟨rfl, rfl, rfl, claim_C1 (mkEnv apiFork) pId (some "aGk=") "blobsha" rfl rfl rfl⟩

/-- C5 counterexample: on the fork path, a path that resolves to a
directory still fails with `NotAFileError`, but a fork creation and a ref
creation — network writes — have already occurred, contradicting "this
failure occurs before any write occurs". -/
theorem counterexample_C5 :
    (editGithubBlob (mkEnv apiDir) pEx).1 = .error (.notAFile "Formula/foo.rb") ∧
    Event.createFork ⟨"o", "r"⟩ ∈ (editGithubBlob (mkEnv apiDir) pEx).2 ∧
    Event.isWrite (Event.createFork ⟨"o", "r"⟩) = true ∧
    Event.createRefAttempt ⟨"bot", "homebrew-core"⟩
      "refs/heads/update-foo.rb-1700000005" "headsha"
      ∈ (editGithubBlob (mkEnv apiDir) pEx).2 := by
  exact ⟨rfl, by decide, rfl, by decide⟩

/-- C5 (amended): when the ref-creation step succeeded and the content
fetched at `filePath` resolves to a directory, the operation fails with
`NotAFileError`, and the failure occurs before the file commit and before
any pull-request creation (fork creation and ref creation may already have
occurred on the PR path). -/
theorem claim_C5 (env : Env) (params : Options) (l : List String)
    (href : (refRetryOf env params).1 = .ok ())
    (hfile : fileResOf env params = .dir l) :
    (editGithubBlob env params).1 = .error (.notAFile params.filePath) ∧
    ∀ e ∈ (editGithubBlob env params).2,
      e.isCommit = false ∧ e.isPull = false := by
  rw [run_of_dir env params l href hfile]
  exact ⟨rfl, midTrace_no_commit_pull env params⟩

/-- C5 witness: the amended claim at the directory fixture. -/
theorem claim_C5_witness :
    (refRetryOf (mkEnv apiDir) pEx).1 = .ok () ∧
    fileResOf (mkEnv apiDir) pEx = .dir ["a.rb", "b.rb"] ∧
    ((editGithubBlob (mkEnv apiDir) pEx).1 =
        .error (.notAFile pEx.filePath) ∧
      ∀ e ∈ (editGithubBlob (mkEnv apiDir) pEx).2,
        e.isCommit = false ∧ e.isPull = false) :=
  ⟨rfl, rfl, claim_C5 (mkEnv apiDir) pEx ["a.rb", "b.rb"] rfl rfl⟩

/-- C4: with push permission and an unprotected base branch, the head
repository is the base repository, the head branch is the base branch, the
run performs no fork creation, no ref creation and no pull-request
creation, and (when the edit succeeds) it returns the new commit's URL. -/
theorem claim_C4 (env : Env) (params : Options) (c : Option String)
    (s : String)
    (hpush : (repoResOf env params).permissions.push = true)
    (hprot : (branchResOf env params).protected = false)
    (hfile : fileResOf env params = .file c s)
    (hrep : params.replace (env.b64decode (c.getD "")) ≠
      env.b64decode (c.getD "")) :
    headRepoOf env params = baseRepoOf params ∧
    headBranchOf env params = baseBranchOf env params ∧
    (∀ e ∈ (editGithubBlob env params).2,
      e.isFork = false ∧ e.isPull = false ∧ e.isRefCreate = false) ∧
    (editGithubBlob env params).1 =
      .ok (env.api.reposCreateOrUpdateFile (baseRepoOf params) params.filePath
        (commitMessageOf params)
        (env.b64encode (params.replace (env.b64decode (c.getD "")))) s
        (baseBranchOf env params)) := by
  have hfork : needsForkOf env params = false := by
    simp [needsForkOf, hpush]
  have hpr : needsPrOf env params = false := by
    simp [needsPrOf, hfork, hprot]
  have h1 : headRepoOf env params = baseRepoOf params := by
    simp [headRepoOf, hfork]
  have h2 : headBranchOf env params = baseBranchOf env params := by
    simp [headBranchOf, hpr]
  have hra : refRetryOf env params = (.ok (), 0, 0) := by
    simp [refRetryOf, hpr]
  have href : (refRetryOf env params).1 = .ok () := by rw [hra]
  rw [run_of_success_direct env params c s href hfile hrep hpr]
  refine ⟨h1, h2, ?_, by rw [h1, h2]⟩
  intro e he
  simp only [midTrace, preTrace, hfork, hra, Bool.false_eq_true, if_false,
    List.replicate, List.append_nil, List.mem_append, List.mem_cons,
    List.not_mem_nil, or_false] at he
  obtain ((h | h) | h) | h := he <;> subst h <;> exact ⟨rfl, rfl, rfl⟩

/-- C4 witness: the direct-push fixture. -/
theorem claim_C4_witness :
    (repoResOf (mkEnv apiDirect) pEx).permissions.push = true ∧
    (branchResOf (mkEnv apiDirect) pEx).protected = false ∧
    fileResOf (mkEnv apiDirect) pEx = .file (some "aGk=") "blobsha" ∧
    pEx.replace ((mkEnv apiDirect).b64decode ((some "aGk=").getD "")) ≠
      (mkEnv apiDirect).b64decode ((some "aGk=").getD "") ∧
    (headRepoOf (mkEnv apiDirect) pEx = baseRepoOf pEx ∧
      headBranchOf (mkEnv apiDirect) pEx = baseBranchOf (mkEnv apiDirect) pEx ∧
      (∀ e ∈ (editGithubBlob (mkEnv apiDirect) pEx).2,
        e.isFork = false ∧ e.isPull = false ∧ e.isRefCreate = false) ∧
      (editGithubBlob (mkEnv apiDirect) pEx).1 =
        .ok ((mkEnv apiDirect).api.reposCreateOrUpdateFile (baseRepoOf pEx)
          pEx.filePath (commitMessageOf pEx)
          ((mkEnv apiDirect).b64encode
            (pEx.replace ((mkEnv apiDirect).b64decode ((some "aGk=").getD ""))))
          "blobsha" (baseBranchOf (mkEnv apiDirect) pEx))) :=
  ⟨rfl, rfl, rfl, by decide,
    claim_C4 (mkEnv apiDirect) pEx (some "aGk=") "blobsha" rfl rfl rfl (by decide)⟩

/-- C3: without push permission, a fork is created and becomes the head
repository, a ref is created in the fork at the base branch's head commit
SHA, a pull request is opened from `fork:headBranch` into
`baseRepo:baseBranch`, and (when the edit succeeds) the run returns the
pull request's URL. -/
theorem claim_C3 (env : Env) (params : Options) (c : Option String)
    (s : String)
    (hpush : (repoResOf env params).permissions.push = false)
    (href : (refRetryOf env params).1 = .ok ())
    (hfile : fileResOf env params = .file c s)
    (hrep : params.replace (env.b64decode (c.getD "")) ≠
      env.b64decode (c.getD "")) :
    headRepoOf env params =
      ⟨(env.api.reposCreateFork (baseRepoOf params)).owner.login,
       (env.api.reposCreateFork (baseRepoOf params)).name⟩ ∧
    Event.createFork (baseRepoOf params) ∈ (editGithubBlob env params).2 ∧
    Event.createRefAttempt (headRepoOf env params)
      ("refs/heads/" ++ headBranchOf env params)
      (branchResOf env params).commit.sha ∈ (editGithubBlob env params).2 ∧
    Event.createPull (baseRepoOf params) (baseBranchOf env params)
      ((headRepoOf env params).owner ++ ":" ++ headBranchOf env params)
      (prTitleOf (commitMessageOf params)) (prBodyOf (commitMessageOf params))
      ∈ (editGithubBlob env params).2 ∧
    (editGithubBlob env params).1 =
      .ok (env.api.pullsCreate (baseRepoOf params) (baseBranchOf env params)
        ((headRepoOf env params).owner ++ ":" ++ headBranchOf env params)
        (prTitleOf (commitMessageOf params))
        (prBodyOf (commitMessageOf params))) := by
  have hfork : needsForkOf env params = true := by
    simp [needsForkOf, hpush]
  have hpr : needsPrOf env params = true := by
    simp [needsPrOf, hfork]
  have h1 : headRepoOf env params =
      ⟨(env.api.reposCreateFork (baseRepoOf params)).owner.login,
       (env.api.reposCreateFork (baseRepoOf params)).name⟩ := by
    simp [headRepoOf, hfork]
  have hpos : 0 < (refRetryOf env params).2.1 := by
    rw [refRetryOf, if_pos hpr]
    exact retry_attempts_pos _ 5000 0 (createRefFn env params)
  rw [run_of_success_pr env params c s href hfile hrep hpr]
  refine ⟨h1, ?_, ?_, ?_, rfl⟩
  · simp [midTrace, preTrace, hfork]
  · simp only [midTrace, preTrace, List.mem_append, List.mem_replicate]
    exact Or.inl (Or.inl (Or.inl (Or.inr ⟨Nat.pos_iff_ne_zero.1 hpos, trivial⟩)))
  · simp

/-- C3 witness: the fork-path fixture. -/
theorem claim_C3_witness :
    (repoResOf (mkEnv apiFork) pEx).permissions.push = false ∧
    (refRetryOf (mkEnv apiFork) pEx).1 = .ok () ∧
    fileResOf (mkEnv apiFork) pEx = .file (some "aGk=") "blobsha" ∧
    pEx.replace ((mkEnv apiFork).b64decode ((some "aGk=").getD "")) ≠
      (mkEnv apiFork).b64decode ((some "aGk=").getD "") ∧
    (headRepoOf (mkEnv apiFork) pEx = ⟨"bot", "homebrew-core"⟩ ∧
      Event.createFork (baseRepoOf pEx) ∈ (editGithubBlob (mkEnv apiFork) pEx).2 ∧
      Event.createRefAttempt (headRepoOf (mkEnv apiFork) pEx)
        ("refs/heads/" ++ headBranchOf (mkEnv apiFork) pEx)
        (branchResOf (mkEnv apiFork) pEx).commit.sha
        ∈ (editGithubBlob (mkEnv apiFork) pEx).2 ∧
      Event.createPull (baseRepoOf pEx) (baseBranchOf (mkEnv apiFork) pEx)
        ((headRepoOf (mkEnv apiFork) pEx).owner ++ ":" ++
          headBranchOf (mkEnv apiFork) pEx)
        (prTitleOf (commitMessageOf pEx)) (prBodyOf (commitMessageOf pEx))
        ∈ (editGithubBlob (mkEnv apiFork) pEx).2 ∧
      (editGithubBlob (mkEnv apiFork) pEx).1 =
        .ok ((mkEnv apiFork).api.pullsCreate (baseRepoOf pEx)
          (baseBranchOf (mkEnv apiFork) pEx)
          ((headRepoOf (mkEnv apiFork) pEx).owner ++ ":" ++
            headBranchOf (mkEnv apiFork) pEx)
          (prTitleOf (commitMessageOf pEx))
          (prBodyOf (commitMessageOf pEx)))) :=
  ⟨rfl, rfl, rfl, by decide,
    claim_C3 (mkEnv apiFork) pEx (some "aGk=") "blobsha" rfl rfl rfl (by decide)⟩

/-- C9: the decision booleans satisfy `needsFork = !push` and
`needsPr = needsFork || protected`, hence `needsFork` implies `needsPr`
(only three of the four combinations are reachable), and a successful run
that needed a fork always opened a pull request. -/
theorem claim_C9 :
    (∀ (env : Env) (params : Options),
      needsForkOf env params = !(repoResOf env params).permissions.push ∧
      needsPrOf env params =
        (needsForkOf env params || (branchResOf env params).protected) ∧
      (needsForkOf env params = true → needsPrOf env params = true)) ∧
    (∀ (env : Env) (params : Options) (u : String),
      needsForkOf env params = true →
      (editGithubBlob env params).1 = .ok u →
      ∃ e ∈ (editGithubBlob env params).2, e.isPull = true) := by
  constructor
  · intro env params
    refine ⟨rfl, rfl, fun h => ?_⟩
    simp [needsPrOf, h]
  · intro env params u hfork hok
    have hpr : needsPrOf env params = true := by simp [needsPrOf, hfork]
    cases hrr : (refRetryOf env params).1 with
    | error e =>
      rw [run_of_refError env params e hrr] at hok
      simp at hok
    | ok v =>
      cases v
      cases hfi : fileResOf env params with
      | dir l =>
        rw [run_of_dir env params l hrr hfi] at hok
        simp at hok
      | file c s =>
        by_cases hrep : params.replace (env.b64decode (c.getD "")) =
            env.b64decode (c.getD "")
        · rw [run_of_noChange env params c s hrr hfi hrep] at hok
          simp at hok
        · rw [run_of_success_pr env params c s hrr hfi hrep hpr]
          refine ⟨Event.createPull (baseRepoOf params) (baseBranchOf env params)
            ((headRepoOf env params).owner ++ ":" ++ headBranchOf env params)
            (prTitleOf (commitMessageOf params))
            (prBodyOf (commitMessageOf params)), ?_, rfl⟩
          simp

/-- C9 witness: both parts at the fork-path fixture. -/
theorem claim_C9_witness :
    (needsForkOf (mkEnv apiFork) pEx = true →
      needsPrOf (mkEnv apiFork) pEx = true) ∧
    needsForkOf (mkEnv apiFork) pEx = true ∧
    (editGithubBlob (mkEnv apiFork) pEx).1 = .ok "https://example.com/pull/1" ∧
    (∃ e ∈ (editGithubBlob (mkEnv apiFork) pEx).2, e.isPull = true) :=
  ⟨(claim_C9.1 (mkEnv apiFork) pEx).2.2, rfl, rfl,
    claim_C9.2 (mkEnv apiFork) pEx "https://example.com/pull/1" rfl rfl⟩

/-- C2: the ref-creation step is retried 6 times at a fixed 5000 ms delay
when a fork was created and 0 times otherwise. With a fork: a `createRef`
failing on attempts 0 and 1 and succeeding on the 3rd attempt makes the
step succeed after 3 attempts and 2 × 5 s of delay; a `createRef` that
never succeeds makes the step — and the run — fail after exactly 6
retries (7 attempts, 30 s waited), propagating the last attempt's error.
Without a fork, a single failing attempt fails the run at once. -/
theorem claim_C2 :
    (∀ (env : Env) (params : Options) (e0 e1 : String),
      needsForkOf env params = true →
      createRefFn env params 0 = .error e0 →
      createRefFn env params 1 = .error e1 →
      createRefFn env params 2 = .ok () →
      refRetryOf env params = (.ok (), 3, 10000)) ∧
    (∀ (env : Env) (params : Options) (err : Nat → String),
      needsForkOf env params = true →
      (∀ n, createRefFn env params n = .error (err n)) →
      refRetryOf env params = (.error (err 6), 7, 30000) ∧
      (editGithubBlob env params).1 = .error (.api (err 6))) ∧
    (∀ (env : Env) (params : Options) (e : String),
      needsForkOf env params = false →
      needsPrOf env params = true →
      createRefFn env params 0 = .error e →
      refRetryOf env params = (.error e, 1, 0) ∧
      (editGithubBlob env params).1 = .error (.api e)) := by
  refine ⟨?_, ?_, ?_⟩
  · intro env params e0 e1 hfork h0 h1 h2
    have hpr : needsPrOf env params = true := by simp [needsPrOf, hfork]
    rw [refRetryOf, if_pos hpr, if_pos hfork,
      retry_six_third_ok 5000 (createRefFn env params) e0 e1 () h0 h1 h2]
  · intro env params err hfork hall
    have hpr : needsPrOf env params = true := by simp [needsPrOf, hfork]
    have hra : refRetryOf env params = (.error (err 6), 7, 30000) := by
      rw [refRetryOf, if_pos hpr, if_pos hfork,
        retry_six_all_error 5000 (createRefFn env params) err hall]
    refine ⟨hra, ?_⟩
    rw [run_of_refError env params (err 6) (by rw [hra])]
  · intro env params e hfork hpr h0
    have hra : refRetryOf env params = (.error e, 1, 0) := by
      rw [refRetryOf, if_pos hpr, if_neg (by simp [hfork]),
        retry_zero_of_error 5000 0 (createRefFn env params) e h0]
    refine ⟨hra, ?_⟩
    rw [run_of_refError env params e (by rw [hra])]

/-- C2 witness: the three retry scenarios at the flaky, dead and
protected-branch fixtures. -/
theorem claim_C2_witness :
    (needsForkOf (mkEnv apiFlaky) pEx = true ∧
      refRetryOf (mkEnv apiFlaky) pEx = (.ok (), 3, 10000)) ∧
    (needsForkOf (mkEnv apiDead) pEx = true ∧
      refRetryOf (mkEnv apiDead) pEx = (.error "fail-6", 7, 30000) ∧
      (editGithubBlob (mkEnv apiDead) pEx).1 = .error (.api "fail-6")) ∧
    (needsForkOf (mkEnv apiProt) pEx = false ∧
      needsPrOf (mkEnv apiProt) pEx = true ∧
      refRetryOf (mkEnv apiProt) pEx = (.error "forbidden", 1, 0) ∧
      (editGithubBlob (mkEnv apiProt) pEx).1 = .error (.api "forbidden")) :=
  ⟨⟨rfl, claim_C2.1 (mkEnv apiFlaky) pEx "not ready" "not ready" rfl rfl rfl rfl⟩,
   ⟨rfl, claim_C2.2.1 (mkEnv apiDead) pEx
      (fun n => "fail-" ++ toString n) rfl (fun _ => rfl)⟩,
   ⟨rfl, rfl, claim_C2.2.2 (mkEnv apiProt) pEx "forbidden" rfl rfl rfl⟩⟩

/-- C6 counterexample: two distinct runs (different base owners, hence
different requests) that start in the same second with the same file path
synthesize the same head branch name — the naming does not guarantee
uniqueness across concurrent runs. -/
theorem counterexample_C6 :
    pEx.owner ≠ pEx2.owner ∧
    needsPrOf (mkEnv apiFork) pEx = true ∧
    needsPrOf (mkEnv apiFork) pEx2 = true ∧
    headBranchOf (mkEnv apiFork) pEx = headBranchOf (mkEnv apiFork) pEx2 := by
  exact ⟨by decide, rfl, rfl, rfl⟩

/-- C6 (amended): whenever a pull request is needed the head branch name
is synthesized as `update-<basename(filePath)>-<unixTimestampSeconds>`
(uniqueness across concurrent runs is not guaranteed: runs in the same
second with the same basename collide); when no pull request is needed
the base branch name is reused as the head branch. -/
theorem claim_C6 (env : Env) (params : Options) :
    (needsPrOf env params = true →
      headBranchOf env params =
        "update-" ++ basename params.filePath ++ "-" ++
          toString (timestampOf env)) ∧
    (needsPrOf env params = false →
      headBranchOf env params = baseBranchOf env params) := by
  constructor <;> intro h <;> simp [headBranchOf, h]

/-- C6 witness: the synthesized name at the fork-path fixture and the
reused name at the direct-push fixture. -/
theorem claim_C6_witness :
    (needsPrOf (mkEnv apiFork) pEx = true ∧
      headBranchOf (mkEnv apiFork) pEx =
        "update-" ++ basename pEx.filePath ++ "-" ++
          toString (timestampOf (mkEnv apiFork))) ∧
    (needsPrOf (mkEnv apiDirect) pEx = false ∧
      headBranchOf (mkEnv apiDirect) pEx = baseBranchOf (mkEnv apiDirect) pEx) :=
  ⟨⟨rfl, (claim_C6 (mkEnv apiFork) pEx).1 rfl⟩,
   ⟨rfl, (claim_C6 (mkEnv apiDirect) pEx).2 rfl⟩⟩

/-- C7: the commit message is split on `"\n\n"` into the PR title (first
part) and body (all later parts rejoined): `"Fix typo\n\nDetails here"`
gives title `"Fix typo"` and body `"Details here"`, a single-line message
gives an empty body, a three-part message puts both later parts in the
body, and the pull request opened by a successful PR-path run carries
exactly this title and body. -/
theorem claim_C7 :
    prTitleOf "Fix typo\n\nDetails here" = "Fix typo" ∧
    prBodyOf "Fix typo\n\nDetails here" = "Details here" ∧
    prTitleOf "Fix typo" = "Fix typo" ∧
    prBodyOf "Fix typo" = "" ∧
    prTitleOf "a\n\nb\n\nc" = "a" ∧
    prBodyOf "a\n\nb\n\nc" = "b\n\nc" ∧
    (∀ (env : Env) (params : Options) (c : Option String) (s : String),
      (refRetryOf env params).1 = .ok () →
      fileResOf env params = .file c s →
      params.replace (env.b64decode (c.getD "")) ≠
        env.b64decode (c.getD "") →
      needsPrOf env params = true →
      Event.createPull (baseRepoOf params) (baseBranchOf env params)
        ((headRepoOf env params).owner ++ ":" ++ headBranchOf env params)
        (prTitleOf (commitMessageOf params))
        (prBodyOf (commitMessageOf params))
        ∈ (editGithubBlob env params).2) := by
  refine ⟨by decide, by decide, by decide, by decide, by decide, by decide, ?_⟩
  intro env params c s href hfile hrep hpr
  rw [run_of_success_pr env params c s href hfile hrep hpr]
  simp

/-- C7 witness: the PR opened for the two-part commit message fixture
carries title `"Fix typo"` and body `"Details here"`. -/
theorem claim_C7_witness :
    (refRetryOf (mkEnv apiFork) pMsg).1 = .ok () ∧
    fileResOf (mkEnv apiFork) pMsg = .file (some "aGk=") "blobsha" ∧
    pMsg.replace ((mkEnv apiFork).b64decode ((some "aGk=").getD "")) ≠
      (mkEnv apiFork).b64decode ((some "aGk=").getD "") ∧
    needsPrOf (mkEnv apiFork) pMsg = true ∧
    Event.createPull (baseRepoOf pMsg) (baseBranchOf (mkEnv apiFork) pMsg)
      ((headRepoOf (mkEnv apiFork) pMsg).owner ++ ":" ++
        headBranchOf (mkEnv apiFork) pMsg)
      (prTitleOf (commitMessageOf pMsg)) (prBodyOf (commitMessageOf pMsg))
      ∈ (editGithubBlob (mkEnv apiFork) pMsg).2 :=
  ⟨rfl, rfl, by decide, rfl,
    claim_C7.2.2.2.2.2.2 (mkEnv apiFork) pMsg (some "aGk=") "blobsha"
      rfl rfl (by decide) rfl⟩

/-- C8: a file response whose `content` field is absent (or falsy, i.e.
the empty string) does not fail the run: the old content is the empty
string, `replace` is applied to `""`, and the run fails with `noChange`
exactly when `replace ""` returns `""`. -/
theorem claim_C8 (env : Env) (params : Options) (c : Option String)
    (s : String)
    (hfile : fileResOf env params = .file c s)
    (hc : c = none ∨ c = some "")
    (hdec : env.b64decode "" = "")
    (href : (refRetryOf env params).1 = .ok ()) :
    oldContentOf env params = "" ∧
    ((editGithubBlob env params).1 = .error .noChange ↔
      params.replace "" = "") := by
  have hget : c.getD "" = "" := by
    rcases hc with h | h <;> subst h <;> rfl
  have hold : oldContentOf env params = "" := by
    simp [oldContentOf, hfile, hget, hdec]
  refine ⟨hold, ?_⟩
  by_cases hrep : params.replace "" = ""
  · have hrep' : params.replace (env.b64decode (c.getD "")) =
        env.b64decode (c.getD "") := by rw [hget, hdec, hrep]
    rw [run_of_noChange env params c s href hfile hrep']
    simpa using hrep
  · have hrep' : params.replace (env.b64decode (c.getD "")) ≠
        env.b64decode (c.getD "") := by rw [hget, hdec]; exact hrep
    cases hpr : needsPrOf env params with
    | true =>
      rw [run_of_success_pr env params c s href hfile hrep' hpr]
      simpa using hrep
    | false =>
      rw [run_of_success_direct env params c s href hfile hrep' hpr]
      simpa using hrep

/-- C8 witness: the missing-content fixture with a changing `replace`
(run succeeds) — applying the theorem shows the old content was `""`. -/
theorem claim_C8_witness :
    fileResOf (mkEnv apiNoContent) pEx = .file none "blobsha" ∧
    ((none : Option String) = none ∨ (none : Option String) = some "") ∧
    (mkEnv apiNoContent).b64decode "" = "" ∧
    (refRetryOf (mkEnv apiNoContent) pEx).1 = .ok () ∧
    (oldContentOf (mkEnv apiNoContent) pEx = "" ∧
      ((editGithubBlob (mkEnv apiNoContent) pEx).1 = .error .noChange ↔
        pEx.replace "" = "")) :=
  ⟨rfl, Or.inl rfl, rfl, rfl,
    claim_C8 (mkEnv apiNoContent) pEx none "blobsha" rfl (Or.inl rfl) rfl rfl⟩

/-- C10: with no caller-supplied commit message the commit message
defaults to `Update <filePath>`, and on the PR path the pull request's
title and body are this default string split on the first blank line. -/
theorem claim_C10 (env : Env) (params : Options) (c : Option String)
    (s : String)
    (hmsg : params.commitMessage = none)
    (href : (refRetryOf env params).1 = .ok ())
    (hfile : fileResOf env params = .file c s)
    (hrep : params.replace (env.b64decode (c.getD "")) ≠
      env.b64decode (c.getD ""))
    (hpr : needsPrOf env params = true) :
    commitMessageOf params = "Update " ++ params.filePath ∧
    Event.createPull (baseRepoOf params) (baseBranchOf env params)
      ((headRepoOf env params).owner ++ ":" ++ headBranchOf env params)
      (prTitleOf ("Update " ++ params.filePath))
      (prBodyOf ("Update " ++ params.filePath))
      ∈ (editGithubBlob env params).2 := by
  have h1 : commitMessageOf params = "Update " ++ params.filePath := by
    simp [commitMessageOf, orElseStr, hmsg]
  refine ⟨h1, ?_⟩
  rw [run_of_success_pr env params c s href hfile hrep hpr, ← h1]
  simp

/-- C10 witness: the fork-path fixture with no commit message. -/
theorem claim_C10_witness :
    pEx.commitMessage = none ∧
    (refRetryOf (mkEnv apiFork) pEx).1 = .ok () ∧
    fileResOf (mkEnv apiFork) pEx = .file (some "aGk=") "blobsha" ∧
    pEx.replace ((mkEnv apiFork).b64decode ((some "aGk=").getD "")) ≠
      (mkEnv apiFork).b64decode ((some "aGk=").getD "") ∧
    needsPrOf (mkEnv apiFork) pEx = true ∧
    (commitMessageOf pEx = "Update " ++ pEx.filePath ∧
      Event.createPull (baseRepoOf pEx) (baseBranchOf (mkEnv apiFork) pEx)
        ((headRepoOf (mkEnv apiFork) pEx).owner ++ ":" ++
          headBranchOf (mkEnv apiFork) pEx)
        (prTitleOf ("Update " ++ pEx.filePath))
        (prBodyOf ("Update " ++ pEx.filePath))
        ∈ (editGithubBlob (mkEnv apiFork) pEx).2) :=
  ⟨rfl, rfl, rfl, by decide, rfl,
    claim_C10 (mkEnv apiFork) pEx (some "aGk=") "blobsha" rfl rfl rfl
      (by decide) rfl⟩

end BumpFormula
